import Mathlib

/-
Verification of the VLAN reconciliation core of the fortigate-netbox
repository.  The Python sources (app/vlan_validator.py, app/sync_switches.py,
app/netbox_client.py, app/models.py, app/config.py) are shallowly embedded
below: pure helpers become Lean functions, the run orchestrator becomes a
function threading an explicit event/write trace, and the NetBox / FortiGate
HTTP collaborators become oracle records (the spec lists them as external
collaborators with a fixed contract).  Machine integers are modelled as Int
(Python ints are unbounded), JSON-ish dynamic values as the PyVal type, and
raising code returns Except.
-/

namespace FgNb

/-! ## Python primitives -/

/-- Python dynamic values as far as this code base observes them:
`None`, `int`, or `str`. -/
inductive PyVal where
  | none : PyVal
  | int (n : Int) : PyVal
  | str (s : String) : PyVal
deriving DecidableEq, Repr

/-- Python truthiness for the values of `PyVal`. -/
def pyTruthy : PyVal → Bool
  | .none => false
  | .int n => n ≠ 0
  | .str s => s ≠ ""

/-- Python `a or b`. -/
def pyOr (a b : PyVal) : PyVal := if pyTruthy a then a else b

/-- Python `str(v)` for the values of `PyVal`. -/
def pyStr : PyVal → String
  | .none => "None"
  | .int n => toString n
  | .str s => s

/-- The whitespace class of Python's `str.strip` / regex `\s` (ASCII part). -/
def isPySpace (c : Char) : Bool :=
  c = ' ' || c = '\t' || c = '\n' || c = '\r' || c = '\x0b' || c = '\x0c'

/-- Python `s.strip()`. -/
def pyStrip (s : String) : String :=
  ⟨((s.data.dropWhile isPySpace).reverse.dropWhile isPySpace).reverse⟩

/-- Python `s.lower()` (ASCII; the code base only lowercases port names,
interface modes and the literal word "vlan"). -/
def pyLower (s : String) : String := ⟨s.data.map Char.toLower⟩

/-- Python `int(...)` on a non-empty digit string. -/
def digitsToNat (l : List Char) : Nat :=
  l.foldl (fun a c => a * 10 + (c.toNat - '0'.toNat)) 0

/-- An embedding of `None`-able ints back into `PyVal`. -/
def pyOfOptInt : Option Int → PyVal
  | Option.none => .none
  | some n => .int n

/-- An embedding of `Optional[str]` into `PyVal`. -/
def pyOfOptStr : Option String → PyVal
  | Option.none => .none
  | some s => .str s

/-! ## vlan_validator._extract_vlan_vid

The two regexes of `_extract_vlan_vid` are
`^(?:vlan[- ]?)?(\d+)$` and `^(?:vlan[- ]?)?(\d+)\s*\(\d+\)$`, both with
IGNORECASE, run on the stripped string.  Because the optional prefix starts
with a letter, backtracking out of it can never help (a leading 'v' is not a
digit), so the match is deterministic: consume a case-insensitive "vlan"
followed by at most one '-' or ' ' when present, then require the digit
shape.  Digits are modelled as ASCII 0-9. -/

/-- Does the character list start with case-insensitive "vlan"? -/
def hasVlanWord : List Char → Bool
  | v :: l :: a :: n :: _ =>
    v.toLower = 'v' && l.toLower = 'l' && a.toLower = 'a' && n.toLower = 'n'
  | _ => false

/-- Consume the regex group `(?:vlan[- ]?)` from the front (assuming
`hasVlanWord` holds). -/
def dropVlanWord (cs : List Char) : List Char :=
  match cs.drop 4 with
  | c :: t => if c = '-' || c = ' ' then t else c :: t
  | [] => []

/-- The whole-string digit match `(\d+)$`. -/
def allDigitsVal (l : List Char) : Option Nat :=
  if l ≠ [] ∧ l.all Char.isDigit then some (digitsToNat l) else Option.none

/-- Regex `^(?:vlan[- ]?)?(\d+)$` (IGNORECASE). -/
def vlanPat1 (cs : List Char) : Option Nat :=
  if hasVlanWord cs then allDigitsVal (dropVlanWord cs) else allDigitsVal cs

/-- Digit-paren shape `(\d+)\s*\(\d+\)$` after any prefix consumption. -/
def digitsParenVal (l : List Char) : Option Nat :=
  let d1 := l.takeWhile Char.isDigit
  let r1 := l.dropWhile Char.isDigit
  if d1 = [] then Option.none
  else
    match r1.dropWhile isPySpace with
    | '(' :: r3 =>
      let d2 := r3.takeWhile Char.isDigit
      let r4 := r3.dropWhile Char.isDigit
      if d2 ≠ [] ∧ r4 = [')'] then some (digitsToNat d1) else Option.none
    | _ => Option.none

/-- Regex `^(?:vlan[- ]?)?(\d+)\s*\(\d+\)$` (IGNORECASE), the
"NetBox display like 'VLAN-31 (31)'" fallback. -/
def vlanPat2 (cs : List Char) : Option Nat :=
  if hasVlanWord cs then digitsParenVal (dropVlanWord cs) else digitsParenVal cs

/-- `vlan_validator._extract_vlan_vid`: extract a vlan vid as integer from
values like 'vlan31', 'VLAN-31', '31'.  `None` and non-matching strings give
`none`; ints are returned unchanged. -/
def extract_vlan_vid : PyVal → Option Int
  | .none => Option.none
  | .int n => some n
  | .str v =>
    let s := pyStrip v
    if s = "" then Option.none
    else
      match vlanPat1 s.data with
      | some k => some (k : Int)
      | Option.none => (vlanPat2 s.data).map (fun k => (k : Int))

/-! ## VLAN name translation (spec-modelled) -/

/-- First-match lookup in a name-to-vid table, modelling an exact
raw-string dict lookup. -/
def tableLookup (table : List (String × Int)) (s : String) : Option Int :=
  match table with
  | [] => Option.none
  | (k, v) :: rest => if k = s then some v else tableLookup rest s

/-- Modelled from the spec: the translation-aware normalizer.  The
configurable name-to-vid translation table (`Settings.vlan_translations`,
passed by `run_sync` to the FortiGate client) is consulted first, by exact
raw-string match, before pattern extraction; only on a lookup miss does the
value fall through to `_extract_vlan_vid`.  The FortiGate-client revision in
src/ does not accept the table `sync_switches.run_sync` passes to it, so the
consuming code is missing from the sources and is reconstructed here from
the spec's words. -/
def extract_vlan_vid_translated (table : List (String × Int)) : PyVal → Option Int
  | .str s =>
    match tableLookup table s with
    | some vid => some vid
    | Option.none => extract_vlan_vid (.str s)
  | v => extract_vlan_vid v

/-! ## NetBox interface JSON and vlan_validator._extract_netbox_vlan_info -/

/-- A NetBox vlan reference dict (`untagged_vlan` or a `tagged_vlans` entry)
restricted to the keys the code reads. -/
structure NBVlanRef where
  vid : PyVal
  name : PyVal
  display : PyVal
deriving DecidableEq, Repr

/-- The `mode` field of a NetBox interface: either a plain value or a
`{"value": ...}` dict. -/
inductive NBModeField where
  | val (v : PyVal) : NBModeField
  | dict (value : PyVal) : NBModeField
deriving DecidableEq, Repr

/-- A NetBox interface JSON object restricted to the keys the code reads.
`untagged_vlan = Option.none` covers both an absent field and a non-dict
value; a `tagged_vlans` entry of `Option.none` is a non-dict list element
(skipped by the code). -/
structure NBIface where
  id : Option Int
  name : Option String
  untagged_vlan : Option NBVlanRef
  tagged_vlans : List (Option NBVlanRef)
  mode : NBModeField
deriving DecidableEq, Repr

/-- `vlan_validator._normalize_port_name`. -/
def normalize_port_name (s : String) : String := pyLower (pyStrip s)

/-- `vlan_validator._extract_netbox_mode`. -/
def extract_netbox_mode (iface : NBIface) : Option String :=
  let m : PyVal := match iface.mode with | .val v => v | .dict value => value
  match m with
  | .str s => if s ≠ "" then some (pyLower (pyStrip s)) else Option.none
  | _ => Option.none

/-- The `tagged_vlan_vids` value of the normalized mapping: a list of vids,
or the tagged-all sentinel `["*"]`. -/
inductive TaggedVids where
  | all : TaggedVids
  | vids (l : List Int) : TaggedVids
deriving DecidableEq, Repr

/-- One value of the normalized NetBox mapping built by
`_extract_netbox_vlan_info`. -/
structure NBEntry where
  id : Option Int
  name : String
  native_vlan_vid : Option Int
  tagged_vlan_vids : TaggedVids
  mode : String
deriving DecidableEq, Repr

/-- Insert an Int into a sorted duplicate-free list, modelling
`sorted(set_of_ints)`. -/
def insertSortedDedup (n : Int) : List Int → List Int
  | [] => [n]
  | m :: rest =>
    if n < m then n :: m :: rest
    else if n = m then m :: rest
    else m :: insertSortedDedup n rest

/-- Python `sorted({...})` over collected ints. -/
def sortedIntSet (l : List Int) : List Int :=
  l.foldl (fun acc n => insertSortedDedup n acc) []

/-- Association-list lookup, modelling a Python dict read
(`mapping.get(key)` / `key in mapping`). -/
def alGet {α : Type} (l : List (String × α)) (k : String) : Option α :=
  match l with
  | [] => Option.none
  | (k', v) :: rest => if k' = k then some v else alGet rest k

/-- Association-list write, modelling `mapping[key] = value` on a Python
dict (replace in place, else append; insertion order preserved). -/
def alPut {α : Type} (k : String) (v : α) : List (String × α) → List (String × α)
  | [] => [(k, v)]
  | (k', v') :: rest => if k' = k then (k, v) :: rest else (k', v') :: alPut k v rest

/-- The vid extracted from one vlan-ref dict: `d.get("vid")` when it is an
int, else `_extract_vlan_vid(d.get("name") or d.get("display"))`. -/
def vlanRefVid (u : NBVlanRef) : Option Int :=
  match u.vid with
  | .int n => some n
  | _ => extract_vlan_vid (pyOr u.name u.display)

/-- The mapping value `_extract_netbox_vlan_info` builds for one interface
whose raw name survived the truthiness check. -/
def mkNBEntry (iface : NBIface) (raw_name : String) : NBEntry :=
  let native_vid : Option Int :=
    match iface.untagged_vlan with
    | Option.none => Option.none
    | some u => vlanRefVid u
  let tagged_set : List Int :=
    sortedIntSet (iface.tagged_vlans.filterMap (fun t => t.bind vlanRefVid))
  let mode := extract_netbox_mode iface
  let tagged_list : TaggedVids :=
    if mode = some "tagged-all" then .all
    else if mode = some "access" then .vids []
    else .vids tagged_set
  { id := iface.id
    name := raw_name
    native_vlan_vid := native_vid
    tagged_vlan_vids := tagged_list
    mode := mode.getD "unknown" }

/-- One iteration of the `_extract_netbox_vlan_info` loop: skip nameless
records; on a case-insensitive key collision with a different raw spelling,
keep the first-seen record and log a warning (recorded here as the pair of
names); otherwise (re)write the mapping slot. -/
def nbInfoStep (st : List (String × NBEntry) × List (String × String))
    (iface : NBIface) : List (String × NBEntry) × List (String × String) :=
  match iface.name with
  | Option.none => st
  | some raw_name =>
    if raw_name = "" then st
    else
      let key := normalize_port_name raw_name
      match alGet st.1 key with
      | some e =>
        if e.name ≠ raw_name then (st.1, st.2 ++ [(e.name, raw_name)])
        else (alPut key (mkNBEntry iface raw_name) st.1, st.2)
      | Option.none => (alPut key (mkNBEntry iface raw_name) st.1, st.2)

/-- `vlan_validator._extract_netbox_vlan_info` together with the
case-collision warnings it logs. -/
def extract_netbox_vlan_info_aux (interfaces : List NBIface) :
    List (String × NBEntry) × List (String × String) :=
  interfaces.foldl nbInfoStep ([], [])

/-- `vlan_validator._extract_netbox_vlan_info` (the returned mapping). -/
def extract_netbox_vlan_info (interfaces : List NBIface) :
    List (String × NBEntry) :=
  (extract_netbox_vlan_info_aux interfaces).1

/-! ## models.SwitchPort / models.Switch -/

/-- `models.SwitchPort`: normalized FortiGate-managed switch port.  VLANs are
stored by name; `allowed_vlans` holds tagged VLANs only, or `["*"]` for
tagged-all. -/
structure SwitchPort where
  name : String
  native_vlan : Option String
  allowed_vlans : List String
deriving DecidableEq, Repr

/-- `models.Switch`: a named switch with a dict of ports keyed by port name
(association list, insertion order preserved). -/
structure Switch where
  name : String
  ports : List (String × SwitchPort)
deriving DecidableEq, Repr

/-! ## vlan_validator._port_sort_key and the natural port sort -/

/-- `vlan_validator._port_sort_key`: strip and lowercase, then split off the
longest all-digit suffix via `^(.*?)(\d+)$` (the lazy head makes the digit
group the longest digit suffix; `.` does not cross a newline, so a prefix
containing one defeats the match). -/
def port_sort_key (name : String) : String × Int :=
  let s := pyLower (pyStrip name)
  let digits := (s.data.reverse.takeWhile Char.isDigit).reverse
  let stem : List Char := s.data.take (s.data.length - digits.length)
  if digits ≠ [] ∧ ¬ stem.contains '\n' then (⟨stem⟩, (digitsToNat digits : Int))
  else (s, 0)

/-- Python `<` on strings: strict lexicographic comparison by code point
(written out on the character lists so that it evaluates). -/
def charListLtb : List Char → List Char → Bool
  | [], [] => false
  | [], _ :: _ => true
  | _ :: _, [] => false
  | a :: as, b :: bs =>
    if a = b then charListLtb as bs else decide (a.toNat < b.toNat)

theorem string_eq_of_data {s t : String} (h : s.data = t.data) : s = t := by
  cases s; cases t; exact congrArg String.mk h

theorem charListLtb_total (as bs : List Char) :
    charListLtb as bs = true ∨ charListLtb bs as = true ∨ as = bs := by
  induction as generalizing bs with
  | nil =>
    cases bs with
    | nil => exact Or.inr (Or.inr rfl)
    | cons b bs => exact Or.inl rfl
  | cons a as ih =>
    cases bs with
    | nil => exact Or.inr (Or.inl rfl)
    | cons b bs =>
      by_cases hab : a = b
      · subst hab
        rcases ih bs with h | h | h
        · exact Or.inl (by simp [charListLtb, h])
        · exact Or.inr (Or.inl (by simp [charListLtb, h]))
        · exact Or.inr (Or.inr (by rw [h]))
      · by_cases hlt : a.toNat < b.toNat
        · exact Or.inl (by simp [charListLtb, hab, hlt])
        · have hba : ¬ b = a := fun h => hab h.symm
          have hgt : b.toNat < a.toNat := by
            rcases Nat.lt_trichotomy a.toNat b.toNat with h | h | h
            · exact absurd h hlt
            · exact absurd (Char.eq_of_val_eq (UInt32.toNat.inj h)) hab
            · exact h
          exact Or.inr (Or.inl (by simp [charListLtb, hba, hgt]))

theorem charListLtb_trans (as bs cs : List Char)
    (h1 : charListLtb as bs = true) (h2 : charListLtb bs cs = true) :
    charListLtb as cs = true := by
  induction as generalizing bs cs with
  | nil =>
    cases cs with
    | nil =>
      cases bs with
      | nil => exact absurd h1 (by simp [charListLtb])
      | cons b bs => exact absurd h2 (by simp [charListLtb])
    | cons c cs => rfl
  | cons a as ih =>
    cases bs with
    | nil => exact absurd h1 (by simp [charListLtb])
    | cons b bs =>
      cases cs with
      | nil => exact absurd h2 (by simp [charListLtb])
      | cons c cs =>
        by_cases hab : a = b
        · subst hab
          simp only [charListLtb, if_pos rfl] at h1
          by_cases hbc : a = c
          · subst hbc
            simp only [charListLtb, if_pos rfl] at h2 ⊢
            exact ih bs cs h1 h2
          · simp only [charListLtb, if_neg hbc] at h2 ⊢
            exact h2
        · simp only [charListLtb, if_neg hab, decide_eq_true_eq] at h1
          by_cases hbc : b = c
          · subst hbc
            simp [charListLtb, hab, h1]
          · simp only [charListLtb, if_neg hbc, decide_eq_true_eq] at h2
            have hac : ¬ a = c := by
              intro he
              subst he
              exact absurd (Nat.lt_trans h1 h2) (Nat.lt_irrefl _)
            simp [charListLtb, hac, Nat.lt_trans h1 h2]

/-- Python tuple comparison `key(a) <= key(b)` for the sort keys
(`str` compares lexicographically by code point). -/
def keyLE (a b : String × Int) : Prop :=
  charListLtb a.1.data b.1.data = true ∨ (a.1 = b.1 ∧ a.2 ≤ b.2)

instance : DecidableRel keyLE := fun a b => by
  unfold keyLE; infer_instance

/-- The total preorder on port names induced by `_port_sort_key`. -/
def portOrder (a b : String) : Prop := keyLE (port_sort_key a) (port_sort_key b)

instance : DecidableRel portOrder := fun a b => by
  unfold portOrder; infer_instance

instance : IsTotal String portOrder :=
  ⟨fun a b => by
    unfold portOrder keyLE
    rcases charListLtb_total (port_sort_key a).1.data (port_sort_key b).1.data
      with h | h | h
    · exact Or.inl (Or.inl h)
    · exact Or.inr (Or.inl h)
    · have he : (port_sort_key a).1 = (port_sort_key b).1 := string_eq_of_data h
      rcases Int.le_total (port_sort_key a).2 (port_sort_key b).2 with h2 | h2
      · exact Or.inl (Or.inr ⟨he, h2⟩)
      · exact Or.inr (Or.inr ⟨he.symm, h2⟩)⟩

instance : IsTrans String portOrder :=
  ⟨fun a b c hab hbc => by
    unfold portOrder keyLE at *
    rcases hab with h1 | ⟨e1, l1⟩ <;> rcases hbc with h2 | ⟨e2, l2⟩
    · exact Or.inl (charListLtb_trans _ _ _ h1 h2)
    · exact Or.inl (e2 ▸ h1)
    · exact Or.inl (by rw [e1]; exact h2)
    · exact Or.inr ⟨e1.trans e2, le_trans l1 l2⟩⟩

/-- `sorted(keys, key=_port_sort_key)`: Python's stable sort under the key
order (insertion sort is stable, so it computes the same list). -/
def sortPorts (l : List String) : List String := List.insertionSort portOrder l

/-! ## vlan_validator.validate_switch_vlans -/

/-- One mismatch dict produced by `validate_switch_vlans`. -/
structure Mismatch where
  switch : String
  port : String
  netbox_interface_id : Option Int
  netbox_interface_name : String
  desired_mode : String
  desired_native_vid : Option Int
  desired_tagged_vids : List Int
deriving DecidableEq, Repr

/-- The underlying int list of a stored `tagged_vlan_vids` value (only read
in the non-tagged-all comparison branch, where it is always `vids`). -/
def taggedVidsList : TaggedVids → List Int
  | .all => []
  | .vids l => l

/-- The per-port comparison body of the `validate_switch_vlans` loop, for a
port present on both sides: zero or one mismatch records.  If either side
reports tagged-all (`"*"`), only the native vids are compared; otherwise a
mismatch is recorded iff the native vids or the sorted tagged vid sets
differ, with the desired state copied from the FortiGate side. -/
def portCheck (swName port_name : String) (fg_port : SwitchPort)
    (nb_port : NBEntry) : List Mismatch :=
  let fg_tagged_raw := fg_port.allowed_vlans
  let fg_native := extract_vlan_vid (pyOfOptStr fg_port.native_vlan)
  let fg_tagged :=
    sortedIntSet (fg_tagged_raw.filterMap (fun v => extract_vlan_vid (.str v)))
  let nb_native := nb_port.native_vlan_vid
  let fg_is_all := fg_tagged_raw.contains "*"
  let nb_is_all := nb_port.tagged_vlan_vids = TaggedVids.all
  if fg_is_all = true ∨ nb_is_all then
    if fg_native ≠ nb_native then
      [{ switch := swName
         port := port_name
         netbox_interface_id := nb_port.id
         netbox_interface_name := nb_port.name
         desired_mode := "tagged"
         desired_native_vid := fg_native
         desired_tagged_vids := [] }]
    else []
  else
    let nb_tagged : List Int := taggedVidsList nb_port.tagged_vlan_vids
    if fg_native ≠ nb_native ∨ fg_tagged ≠ nb_tagged then
      [{ switch := swName
         port := port_name
         netbox_interface_id := nb_port.id
         netbox_interface_name := nb_port.name
         desired_mode := if fg_tagged ≠ [] then "tagged" else "access"
         desired_native_vid := fg_native
         desired_tagged_vids := fg_tagged }]
    else []

/-- The body of the `validate_switch_vlans` loop for one (sorted) port name:
ports with no case-insensitive NetBox counterpart are logged and skipped. -/
def validatePort (sw : Switch) (nb_map : List (String × NBEntry))
    (port_name : String) : List Mismatch :=
  match alGet sw.ports port_name with
  | Option.none => []
  | some fg_port =>
    match alGet nb_map (normalize_port_name port_name) with
    | Option.none => []
    | some nb_port => portCheck sw.name port_name fg_port nb_port

/-- `vlan_validator.validate_switch_vlans`: compare one switch's VLAN
configuration with NetBox, iterating ports in natural sort order. -/
def validate_switch_vlans (sw : Switch) (netbox_interfaces : List NBIface) :
    List Mismatch :=
  let nb_map := extract_netbox_vlan_info netbox_interfaces
  (sortPorts (sw.ports.map Prod.fst)).flatMap (validatePort sw nb_map)

/-! ## netbox_client write path and sync_switches.run_sync

The HTTP collaborators are oracles: `NetBoxEnv` fixes, for one run, the
responses of the NetBox API (device lookup, interface listing, vlan vid
resolution, single-interface read), and each configured FortiGate device
carries the outcome of its `get_switches()` call.  `run_sync` is embedded as
a function returning the ordered event log (the claim-relevant log lines and
stop reports), the list of issued interface writes (PATCH payloads), and an
outcome: a normal exit code or an uncaught Python exception. -/

/-- The payload of one NetBox interface PATCH issued by
`update_interface_vlan_config`. -/
structure WritePayload where
  interface_id : Int
  mode : String
  untagged_vlan : Option Int
  tagged_vlans : List Int
deriving DecidableEq, Repr

/-- Claim-relevant observable events of one `run_sync` invocation, in
program order. -/
inductive RunEvent where
  | fetchFailed (fgName : String) : RunEvent
  | deviceMissing (swName : String) : RunEvent
  | maxUpdatesDisabled (maxUpdates : Int) : RunEvent
  | skippedNoIfaceId (swName port : String) : RunEvent
  | writeIssued (p : WritePayload) : RunEvent
  | cacheInvalidated (key : String) : RunEvent
  | verifyOk (ifaceId : Int) : RunEvent
  | verifyFailed (ifaceId : Int) : RunEvent
  | killSwitch (applied : Nat) (swName : String) : RunEvent
  | targetNotFound (target : String) : RunEvent
deriving DecidableEq, Repr

/-- How one `run_sync` invocation ends: a return code, or an exception that
propagates out uncaught. -/
inductive Outcome where
  | exitCode (c : Int) : Outcome
  | raised (msg : String) : Outcome
deriving DecidableEq, Repr

/-- The NetBox API oracle for one run.  `resolveVid` is the outcome of the
`/api/ipam/vlans/?vid=` search in `get_vlan_id_by_vid` (object id, or the
RuntimeError message for not-found / ambiguous / id-less results). -/
structure NetBoxEnv where
  getDeviceByName : String → Option Int
  getInterfacesForDevice : Int → List NBIface
  resolveVid : Int → Except String Int
  getInterface : Int → NBIface

/-- `netbox_client.get_vlan_id_by_vid`: rejects vid <= 0 up front, then
resolves through the API (the per-vid cache is transparent here). -/
def get_vlan_id_by_vid (env : NetBoxEnv) (vid : Int) : Except String Int :=
  if vid ≤ 0 then .error ("VLAN vid must be > 0, got: " ++ toString vid)
  else env.resolveVid vid

/-- Resolve a list of tagged vids left to right, propagating the first
RuntimeError. -/
def resolveTagged (env : NetBoxEnv) : List Int → Except String (List Int)
  | [] => .ok []
  | v :: rest => do
    let i ← get_vlan_id_by_vid env v
    let is ← resolveTagged env rest
    .ok (i :: is)

/-- `netbox_client.update_interface_vlan_config`: validate the mode, resolve
the native and tagged vids to object ids, and PATCH the interface.  The
returned payload is the body of the PATCH (tagged ids are cleared in access
mode); errors are the RuntimeErrors the Python raises. -/
def update_interface_vlan_config (env : NetBoxEnv) (interface_id : Int)
    (mode : String) (native_vlan_vid : Option Int) (tagged_vlan_vids : List Int) :
    Except String WritePayload := do
  let mode_value := pyLower (pyStrip mode)
  if mode_value ≠ "access" ∧ mode_value ≠ "tagged" then
    .error ("Unsupported NetBox interface mode for update: " ++ mode)
  else
    let untagged_vlan_id ←
      match native_vlan_vid with
      | Option.none => .ok Option.none
      | some v => (get_vlan_id_by_vid env v).map some
    let tagged_vlan_ids ← resolveTagged env tagged_vlan_vids
    .ok { interface_id := interface_id
          mode := mode_value
          untagged_vlan := untagged_vlan_id
          tagged_vlans := if mode_value = "tagged" then tagged_vlan_ids else [] }

/-- Plain sorted insertion (with duplicates), modelling Python `sorted` on a
list of ints. -/
def insertSorted (n : Int) : List Int → List Int
  | [] => [n]
  | m :: rest => if n ≤ m then n :: m :: rest else m :: insertSorted n rest

/-- Python `sorted(list_of_ints)`. -/
def sortInts (l : List Int) : List Int := l.foldr insertSorted []

/-- The post-update verification read of `run_sync` (lines 125-141):
re-read the interface and compare mode, native vid and sorted tagged vids
against the desired state.  `(updated_iface.get("mode") or {}).get("value")`
raises AttributeError when the mode field is a truthy non-dict; that raise
is modelled as the error case. -/
def verifyUpdate (env : NetBoxEnv) (iface_id : Int) (m : Mismatch) :
    Except String Bool := do
  let updated_iface := env.getInterface iface_id
  let updated_mode : PyVal ←
    match updated_iface.mode with
    | .dict v => .ok v
    | .val v =>
      if pyTruthy v then .error "AttributeError: object has no attribute get"
      else .ok PyVal.none
  let updated_native_vid : PyVal :=
    match updated_iface.untagged_vlan with
    | Option.none => PyVal.none
    | some u => u.vid
  let updated_tagged_vids : List Int :=
    sortInts (updated_iface.tagged_vlans.filterMap (fun t =>
      t.bind (fun u => match u.vid with | .int n => some n | _ => Option.none)))
  let desired_mode := if m.desired_mode = "" then "tagged" else m.desired_mode
  let desired_native_vid := m.desired_native_vid
  let desired_tagged_vids := sortInts m.desired_tagged_vids
  let nativeEq : Bool :=
    match updated_native_vid, desired_native_vid with
    | PyVal.none, Option.none => true
    | PyVal.int n, some k => n = k
    | _, _ => false
  .ok (pyLower (pyStr updated_mode) = pyLower desired_mode ∧
       nativeEq = true ∧ updated_tagged_vids = desired_tagged_vids : Bool)

/-- The kill-switch update loop of `run_sync` (lines 101-176): apply
mismatches one at a time, skipping entries without an integer NetBox
interface id, stopping with exit code 0 once `applied` reaches the budget.
A RuntimeError from vid resolution (or an HTTP error surfaced by the oracle)
propagates uncaught.  Returns the events, the issued writes, and the early
outcome if the loop returned or raised. -/
def processMismatches (env : NetBoxEnv) (swName cacheKey : String)
    (maxUpdates : Int) :
    List Mismatch → Nat → List RunEvent × List WritePayload × Option Outcome
  | [], _ => ([], [], Option.none)
  | m :: rest, applied =>
    match m.netbox_interface_id with
    | Option.none =>
      let r := processMismatches env swName cacheKey maxUpdates rest applied
      (RunEvent.skippedNoIfaceId swName m.port :: r.1, r.2.1, r.2.2)
    | some iface_id =>
      match update_interface_vlan_config env iface_id
          (if m.desired_mode = "" then "tagged" else m.desired_mode)
          m.desired_native_vid m.desired_tagged_vids with
      | .error e => ([], [], some (Outcome.raised e))
      | .ok payload =>
        let ev0 := [RunEvent.writeIssued payload, RunEvent.cacheInvalidated cacheKey]
        match verifyUpdate env iface_id m with
        | .error e => (ev0, [payload], some (Outcome.raised e))
        | .ok ok =>
          let ev1 := ev0 ++ [if ok then RunEvent.verifyOk iface_id else RunEvent.verifyFailed iface_id]
          let applied' := applied + 1
          if (applied' : Int) ≥ maxUpdates then
            (ev1 ++ [RunEvent.killSwitch applied' swName], [payload],
             some (Outcome.exitCode 0))
          else
            let r := processMismatches env swName cacheKey maxUpdates rest applied'
            (ev1 ++ r.1, payload :: r.2.1, r.2.2)

/-- Python truthiness of `only_switch_name` (`Optional[str]`). -/
def onlyNameTruthy : Option String → Bool
  | Option.none => false
  | some s => s ≠ ""

/-- The per-switch body of `run_sync`: NetBox device lookup (missing device
is fatal, exit 1), interface fetch, reconciliation, and - only in truthy
single-target mode with a non-empty mismatch list - the bounded write-back
(a non-positive budget logs a warning and returns 0 before any write). -/
def processSwitch (env : NetBoxEnv) (maxUpd : Int) (onlyTruthy : Bool)
    (sw : Switch) : List RunEvent × List WritePayload × Option Outcome :=
  match env.getDeviceByName sw.name with
  | Option.none => ([RunEvent.deviceMissing sw.name], [], some (Outcome.exitCode 1))
  | some device_id =>
    let interfaces := env.getInterfacesForDevice device_id
    let mismatches := validate_switch_vlans sw interfaces
    if onlyTruthy ∧ mismatches ≠ [] then
      let cacheKey := "netbox_device_" ++ toString device_id ++ "_interfaces"
      if maxUpd ≤ 0 then
        ([RunEvent.maxUpdatesDisabled maxUpd], [], some (Outcome.exitCode 0))
      else processMismatches env sw.name cacheKey maxUpd mismatches 0
    else ([], [], Option.none)

/-- The switch loop of `run_sync` for one FortiGate's (already filtered)
switch list. -/
def processSwitchList (env : NetBoxEnv) (maxUpd : Int) (onlyTruthy : Bool) :
    List Switch → List RunEvent × List WritePayload × Option Outcome
  | [] => ([], [], Option.none)
  | sw :: rest =>
    let r := processSwitch env maxUpd onlyTruthy sw
    match r.2.2 with
    | some o => (r.1, r.2.1, some o)
    | Option.none =>
      let rr := processSwitchList env maxUpd onlyTruthy rest
      (r.1 ++ rr.1, r.2.1 ++ rr.2.1, rr.2.2)

/-- One configured FortiGate device: its name/host and the outcome of
`FortiGateClient(...).get_switches()` (the client is an external
collaborator; an exception there is caught by `run_sync` and fatal). -/
structure FortiGateDevice where
  name : String
  host : String
  fetchSwitches : Except String (List Switch)

/-- The slice of `config.Settings` that `run_sync` reads.
`max_netbox_updates` models `int(getattr(settings, "max_netbox_updates", 1))`
(the dataclass in config.py does not declare the field, so the getattr
default 1 applies unless it was set dynamically). -/
structure Settings where
  fortigate_devices : List FortiGateDevice
  max_netbox_updates : Int

/-- The FortiGate loop of `run_sync`: fetch switches (failure is fatal,
exit 1), filter by the target name in truthy single-target mode, and run the
per-switch pipeline.  Also tracks `matched_any`. -/
def processDevices (env : NetBoxEnv) (maxUpd : Int) (onlyName : Option String) :
    List FortiGateDevice → Bool →
    List RunEvent × List WritePayload × Bool × Option Outcome
  | [], matched => ([], [], matched, Option.none)
  | fg :: rest, matched =>
    match fg.fetchSwitches with
    | .error _ => ([RunEvent.fetchFailed fg.name], [], matched, some (Outcome.exitCode 1))
    | .ok switches =>
      let switches :=
        if onlyNameTruthy onlyName then
          switches.filter (fun sw => sw.name = onlyName.getD "")
        else switches
      let matched' := matched || !switches.isEmpty
      let r := processSwitchList env maxUpd (onlyNameTruthy onlyName) switches
      match r.2.2 with
      | some o => (r.1, r.2.1, matched', some o)
      | Option.none =>
        let rr := processDevices env maxUpd onlyName rest matched'
        (r.1 ++ rr.1, r.2.1 ++ rr.2.1, rr.2.2.1, rr.2.2.2)

/-- `sync_switches.run_sync`: the whole run.  Returns the event log, the
issued NetBox writes, and the outcome.  A truthy target that matched no
switch anywhere is fatal (exit 1); otherwise a run that was not stopped
early exits 0. -/
def run_sync (settings : Settings) (env : NetBoxEnv)
    (only_switch_name : Option String) :
    List RunEvent × List WritePayload × Outcome :=
  let r := processDevices env settings.max_netbox_updates only_switch_name
    settings.fortigate_devices false
  match r.2.2.2 with
  | some o => (r.1, r.2.1, o)
  | Option.none =>
    if onlyNameTruthy only_switch_name ∧ r.2.2.1 = false then
      (r.1 ++ [RunEvent.targetNotFound (only_switch_name.getD "")], r.2.1,
       Outcome.exitCode 1)
    else (r.1, r.2.1, Outcome.exitCode 0)

/-! ## Claim C6: idempotence of normalization -/

/-- C6: VLAN identity normalization is idempotent: feeding the result of
`_extract_vlan_vid` (an `Optional[int]`) back into it yields the same value,
for every input. -/
theorem extract_vlan_vid_idempotent (x : PyVal) :
    extract_vlan_vid (pyOfOptInt (extract_vlan_vid x)) = extract_vlan_vid x := by
  cases h : extract_vlan_vid x with
  | none => rfl
  | some n => rfl

/-! ## Claim C8: produced vids and the vid >= 1 rule -/

/-- A trivial NetBox oracle used by closed witnesses. -/
def env0 : NetBoxEnv :=
  { getDeviceByName := fun _ => Option.none
    getInterfacesForDevice := fun _ => []
    resolveVid := fun v => .ok v
    getInterface := fun _ =>
      { id := Option.none, name := Option.none, untagged_vlan := Option.none
        tagged_vlans := [], mode := .val PyVal.none } }

/-- C8 counterexample: the normalizer does produce vid 0 - the string "0"
matches the digit pattern and yields 0, and integer inputs pass through
unchanged including negatives - so 'normalization never yields an identity
with vid 0 or negative' is false on the code. -/
theorem extract_vlan_vid_zero_cex :
    extract_vlan_vid (PyVal.str "0") = some 0 ∧
    extract_vlan_vid (PyVal.int (-5)) = some (-5) := by
  exact ⟨rfl, rfl⟩

/-- C8 (amended): string inputs never yield a negative vid (the digit
patterns produce naturals), integer inputs pass through unchanged, empty or
absent input yields no identity, and the vid >= 1 rule is enforced not by
the normalizer but by the write-path resolver `get_vlan_id_by_vid`, which
raises for every vid <= 0. -/
theorem extract_vlan_vid_bounds :
    (∀ s : String, ∀ n : Int, extract_vlan_vid (.str s) = some n → 0 ≤ n) ∧
    (∀ n : Int, extract_vlan_vid (.int n) = some n) ∧
    (extract_vlan_vid .none = Option.none) ∧
    (∀ s : String, pyStrip s = "" → extract_vlan_vid (.str s) = Option.none) ∧
    (∀ env : NetBoxEnv, ∀ v : Int, v ≤ 0 →
      ∃ msg, get_vlan_id_by_vid env v = .error msg) := by
  refine ⟨?_, fun n => rfl, rfl, ?_, ?_⟩
  · intro s n h
    have hdef : extract_vlan_vid (.str s) =
        (if pyStrip s = "" then Option.none
         else
           match vlanPat1 (pyStrip s).data with
           | some k => some (k : Int)
           | Option.none => (vlanPat2 (pyStrip s).data).map (fun k => (k : Int))) := rfl
    rw [hdef] at h
    by_cases hs : pyStrip s = ""
    · rw [if_pos hs] at h; exact absurd h (by simp)
    · rw [if_neg hs] at h
      cases h1 : vlanPat1 (pyStrip s).data with
      | some k =>
        rw [h1] at h
        have h' : (some (k : Int) : Option Int) = some n := h
        injection h' with h'
        exact h' ▸ Int.natCast_nonneg k
      | none =>
        rw [h1] at h
        cases h2 : vlanPat2 (pyStrip s).data with
        | some k =>
          rw [h2] at h
          have h' : (some (k : Int) : Option Int) = some n := h
          injection h' with h'
          exact h' ▸ Int.natCast_nonneg k
        | none =>
          rw [h2] at h
          have h' : (Option.none : Option Int) = some n := h
          cases h'
  · intro s hs
    unfold extract_vlan_vid
    simp [hs]
  · intro env v hv
    exact ⟨_, by unfold get_vlan_id_by_vid; rw [if_pos hv]⟩

/-- C8 witness: the amended theorem applied at concrete inputs: "vlan31"
yields a non-negative vid, 7 passes through, a whitespace string is
identity-free, and vid 0 is rejected at write time. -/
theorem extract_vlan_vid_bounds_witness :
    ((0 : Int) ≤ 31) ∧ (extract_vlan_vid (.int 7) = some 7) ∧
    (extract_vlan_vid (.str "   ") = Option.none) ∧
    (∃ msg, get_vlan_id_by_vid env0 0 = .error msg) :=
  ⟨extract_vlan_vid_bounds.1 "vlan31" 31 (by decide),
   extract_vlan_vid_bounds.2.1 7,
   extract_vlan_vid_bounds.2.2.2.1 "   " (by decide),
   extract_vlan_vid_bounds.2.2.2.2 env0 0 (by decide)⟩

/-! ## Claim C4: translation table precedence (spec-modelled) -/

/-- C4: for every raw VLAN value that is an exact string key of the
configured name-to-vid translation table, the (spec-modelled) translation-
aware normalizer returns the translated vid; the table lookup takes
precedence over pattern extraction unconditionally. -/
theorem translation_table_first (table : List (String × Int)) (s : String)
    (vid : Int) (h : tableLookup table s = some vid) :
    extract_vlan_vid_translated table (.str s) = some vid := by
  simp [extract_vlan_vid_translated, h]

/-- C4 witness: with the table aliasing "vlan7" to 42, the raw value
"vlan7" - which also matches the vlanNN pattern, extracting 7 - resolves
via the table to 42. -/
theorem translation_table_first_witness :
    extract_vlan_vid_translated [("vlan7", 42)] (.str "vlan7") = some 42 ∧
    extract_vlan_vid (.str "vlan7") = some 7 :=
  ⟨translation_table_first [("vlan7", 42)] "vlan7" 42 (by decide), by decide⟩

/-! ## Claim C5: tagged-all compares natives only -/

/-- C5: for a port present on both sides where either side reports
tagged-all, the comparison looks at the native vids only: no mismatch is
emitted iff the natives agree, regardless of the tagged lists of either
side (they are universally quantified here and never inspected). -/
theorem tagged_all_native_only (swName port : String) (fg : SwitchPort)
    (nb : NBEntry)
    (h : fg.allowed_vlans.contains "*" = true ∨
      nb.tagged_vlan_vids = TaggedVids.all) :
    portCheck swName port fg nb = [] ↔
      extract_vlan_vid (pyOfOptStr fg.native_vlan) = nb.native_vlan_vid := by
  unfold portCheck
  rw [if_pos h]
  by_cases he : extract_vlan_vid (pyOfOptStr fg.native_vlan) = nb.native_vlan_vid
  · simp [he]
  · simp [he]

/-- C5 witness: both sides tagged-all with native VLAN 5 (and arbitrary
junk in the tagged lists): no mismatch. -/
theorem tagged_all_native_only_witness :
    portCheck "SW1" "port1"
      { name := "port1", native_vlan := some "VLAN-5"
        allowed_vlans := ["*", "vlan9"] }
      { id := some 3, name := "port1", native_vlan_vid := some 5
        tagged_vlan_vids := TaggedVids.all, mode := "tagged-all" } = [] :=
  (tagged_all_native_only "SW1" "port1"
    { name := "port1", native_vlan := some "VLAN-5"
      allowed_vlans := ["*", "vlan9"] }
    { id := some 3, name := "port1", native_vlan_vid := some 5
      tagged_vlan_vids := TaggedVids.all, mode := "tagged-all" }
    (Or.inr rfl)).mpr (by decide)

/-! ## Claim C7: mode access forces an empty tagged set -/

/-- Inventory-side invariant: one extracted mapping entry with mode
"access" has the empty tagged list. -/
theorem mkNBEntry_access (iface : NBIface) (raw : String)
    (h : (mkNBEntry iface raw).mode = "access") :
    (mkNBEntry iface raw).tagged_vlan_vids = TaggedVids.vids [] := by
  unfold mkNBEntry at h ⊢
  cases hm : extract_netbox_mode iface with
  | none =>
    simp only [hm, Option.getD] at h
    exact absurd h (by decide)
  | some s =>
    simp only [hm, Option.getD] at h
    subst h
    simp [hm]

/-- alGet after alPut: the written slot reads back the new value, other
slots are unchanged. -/
theorem alGet_alPut {α : Type} (k : String) (v : α)
    (l : List (String × α)) (k' : String) :
    alGet (alPut k v l) k' = if k = k' then some v else alGet l k' := by
  induction l with
  | nil => simp [alPut, alGet]
  | cons p rest ih =>
    obtain ⟨pk, pv⟩ := p
    by_cases hpk : pk = k
    · subst hpk
      by_cases hk' : pk = k'
      · subst hk'; simp [alPut, alGet]
      · simp [alPut, alGet, hk']
    · by_cases hk' : pk = k'
      · subst hk'
        have hkk : ¬ k = pk := fun he => hpk he.symm
        simp [alPut, alGet, hpk, hkk, ih]
      · simp [alPut, alGet, hpk, hk', ih]

/-- Every entry reachable in the mapping built by the
`_extract_netbox_vlan_info` fold satisfies the access-mode invariant. -/
theorem nbInfo_fold_access (ifaces : List NBIface)
    (st : List (String × NBEntry) × List (String × String))
    (hst : ∀ k e, alGet st.1 k = some e → e.mode = "access" →
      e.tagged_vlan_vids = TaggedVids.vids []) :
    ∀ k e, alGet (ifaces.foldl nbInfoStep st).1 k = some e →
      e.mode = "access" → e.tagged_vlan_vids = TaggedVids.vids [] := by
  induction ifaces generalizing st with
  | nil => exact hst
  | cons iface rest ih =>
    refine ih (nbInfoStep st iface) ?_
    intro k e hk hm
    cases hname : iface.name with
    | none =>
      have hstep : nbInfoStep st iface = st := by
        unfold nbInfoStep; rw [hname]
      rw [hstep] at hk
      exact hst k e hk hm
    | some raw =>
      by_cases hraw : raw = ""
      · have hstep : nbInfoStep st iface = st := by
          unfold nbInfoStep; rw [hname]; simp [hraw]
        rw [hstep] at hk
        exact hst k e hk hm
      · cases hget : alGet st.1 (normalize_port_name raw) with
        | some e0 =>
          by_cases hne : e0.name = raw
          · have hstep : nbInfoStep st iface =
                (alPut (normalize_port_name raw) (mkNBEntry iface raw) st.1, st.2) := by
              unfold nbInfoStep; rw [hname]; simp [hraw, hget, hne]
            rw [hstep] at hk
            rw [show (alPut (normalize_port_name raw) (mkNBEntry iface raw) st.1,
              st.2).1 = alPut (normalize_port_name raw) (mkNBEntry iface raw) st.1 from rfl,
              alGet_alPut] at hk
            by_cases hkk : normalize_port_name raw = k
            · rw [if_pos hkk] at hk
              cases hk
              exact mkNBEntry_access iface raw hm
            · rw [if_neg hkk] at hk; exact hst k e hk hm
          · have hstep : nbInfoStep st iface = (st.1, st.2 ++ [(e0.name, raw)]) := by
              unfold nbInfoStep; rw [hname]; simp [hraw, hget, hne]
            rw [hstep] at hk
            exact hst k e hk hm
        | none =>
          have hstep : nbInfoStep st iface =
              (alPut (normalize_port_name raw) (mkNBEntry iface raw) st.1, st.2) := by
            unfold nbInfoStep; rw [hname]; simp [hraw, hget]
          rw [hstep] at hk
          rw [show (alPut (normalize_port_name raw) (mkNBEntry iface raw) st.1,
            st.2).1 = alPut (normalize_port_name raw) (mkNBEntry iface raw) st.1 from rfl,
            alGet_alPut] at hk
          by_cases hkk : normalize_port_name raw = k
          · rw [if_pos hkk] at hk
            cases hk
            exact mkNBEntry_access iface raw hm
          · rw [if_neg hkk] at hk; exact hst k e hk hm

/-- Switch-side (desired-state) invariant for the per-port comparison. -/
theorem portCheck_access (swName port : String) (fg : SwitchPort)
    (nb : NBEntry) (m : Mismatch) (hm : m ∈ portCheck swName port fg nb)
    (ha : m.desired_mode = "access") : m.desired_tagged_vids = [] := by
  revert hm
  unfold portCheck
  cases htv : nb.tagged_vlan_vids with
  | all =>
    rw [if_pos (Or.inr rfl)]
    intro hm
    split at hm
    · rw [List.mem_singleton] at hm
      subst hm
      exact absurd (show ("tagged" : String) = "access" from ha) (by decide)
    · cases hm
  | vids l =>
    by_cases hstar : fg.allowed_vlans.contains "*" = true
    · rw [if_pos (Or.inl hstar)]
      intro hm
      split at hm
      · rw [List.mem_singleton] at hm
        subst hm
        exact absurd (show ("tagged" : String) = "access" from ha) (by decide)
      · cases hm
    · have hcond : ¬(fg.allowed_vlans.contains "*" = true ∨
          TaggedVids.vids l = TaggedVids.all) := by
        rintro (h | h)
        · exact hstar h
        · cases h
      rw [if_neg hcond]
      intro hm
      simp only [taggedVidsList] at hm
      split at hm
      · rw [List.mem_singleton] at hm
        subst hm
        by_cases hft : sortedIntSet (List.filterMap
            (fun v => extract_vlan_vid (PyVal.str v)) fg.allowed_vlans) = []
        · exact hft
        · have ha' : (if sortedIntSet (List.filterMap
              (fun v => extract_vlan_vid (PyVal.str v)) fg.allowed_vlans) ≠ []
              then "tagged" else "access") = "access" := ha
          rw [if_pos hft] at ha'
          exact absurd ha' (by decide)
      · cases hm

/-- Every mismatch produced by `validatePort` comes from `portCheck`. -/
theorem validatePort_mem (sw : Switch) (nbm : List (String × NBEntry))
    (name : String) (m : Mismatch) (hm : m ∈ validatePort sw nbm name) :
    ∃ fg nb, m ∈ portCheck sw.name name fg nb := by
  cases h1 : alGet sw.ports name with
  | none => simp [validatePort, h1] at hm
  | some fg =>
    cases h2 : alGet nbm (normalize_port_name name) with
    | none => simp [validatePort, h1, h2] at hm
    | some nb =>
      simp only [validatePort, h1, h2] at hm
      exact ⟨fg, nb, hm⟩

/-- C7: on both extraction paths, mode access forces an empty tagged VLAN
set: every entry of the inventory-side mapping with mode "access" carries
no tagged vids (whatever tagged entries the raw payload held), and every
mismatch whose desired mode is "access" carries an empty desired tagged
list. -/
theorem access_mode_empty_tagged :
    (∀ (ifaces : List NBIface) (k : String) (e : NBEntry),
      alGet (extract_netbox_vlan_info ifaces) k = some e →
      e.mode = "access" → e.tagged_vlan_vids = TaggedVids.vids []) ∧
    (∀ (sw : Switch) (ifaces : List NBIface) (m : Mismatch),
      m ∈ validate_switch_vlans sw ifaces →
      m.desired_mode = "access" → m.desired_tagged_vids = []) := by
  constructor
  · intro ifaces k e hk hm
    exact nbInfo_fold_access ifaces ([], []) (by intro k e h; cases h) k e hk hm
  · intro sw ifaces m hm ha
    unfold validate_switch_vlans at hm
    simp only [List.mem_flatMap] at hm
    obtain ⟨name, _, hmem⟩ := hm
    obtain ⟨fg, nb, hpc⟩ := validatePort_mem sw _ name m hmem
    exact portCheck_access _ _ _ _ m hpc ha

/-- A concrete access-mode NetBox interface whose raw payload carries a
tagged entry. -/
def icAcc : NBIface :=
  { id := some 4
    name := some "port1"
    untagged_vlan := some { vid := .int 20, name := .none, display := .none }
    tagged_vlans := [some { vid := .int 30, name := .none, display := .none }]
    mode := .dict (.str "access") }

/-- A concrete one-port switch disagreeing with `icAcc` on the native
VLAN. -/
def swAcc : Switch :=
  { name := "SW1"
    ports := [("port1",
      { name := "port1", native_vlan := some "vlan10", allowed_vlans := [] })] }

/-- Fallback mapping entry used to state the witness in closed form. -/
def dfltEntry : NBEntry :=
  { id := Option.none, name := "", native_vlan_vid := Option.none
    tagged_vlan_vids := TaggedVids.all, mode := "" }

/-- Fallback mismatch record used to state the witness in closed form. -/
def dfltMismatch : Mismatch :=
  { switch := "", port := "", netbox_interface_id := Option.none
    netbox_interface_name := "", desired_mode := ""
    desired_native_vid := Option.none, desired_tagged_vids := [1] }

/-- C7 witness: the invariants applied to a concrete access-mode interface
(tagged payload and all) and a concrete reconciliation mismatch. -/
theorem access_mode_empty_tagged_witness :
    (((alGet (extract_netbox_vlan_info [icAcc]) "port1").getD
        dfltEntry).tagged_vlan_vids = TaggedVids.vids []) ∧
    (((validate_switch_vlans swAcc [icAcc]).headD
        dfltMismatch).desired_tagged_vids = []) :=
  ⟨access_mode_empty_tagged.1 [icAcc] "port1"
      ((alGet (extract_netbox_vlan_info [icAcc]) "port1").getD dfltEntry)
      (by decide) (by decide),
   access_mode_empty_tagged.2 swAcc [icAcc]
      ((validate_switch_vlans swAcc [icAcc]).headD dfltMismatch)
      (by decide) (by decide)⟩

/-! ## Claim C10: deduplication in the inventory-side extraction -/

/-- C10: for two interface records whose port names collide
case-insensitively, the extraction keeps the first-seen record and logs the
collision exactly when the raw spellings differ; when the raw names are
exactly identical, the later record silently replaces the earlier one (no
collision warning). -/
theorem netbox_dedup (i1 i2 : NBIface) (n1 n2 : String)
    (h1 : i1.name = some n1) (h2 : i2.name = some n2)
    (hn1 : n1 ≠ "") (hn2 : n2 ≠ "")
    (hkey : normalize_port_name n1 = normalize_port_name n2) :
    (n1 ≠ n2 → extract_netbox_vlan_info_aux [i1, i2] =
      ([(normalize_port_name n1, mkNBEntry i1 n1)], [(n1, n2)])) ∧
    (n1 = n2 → extract_netbox_vlan_info_aux [i1, i2] =
      ([(normalize_port_name n1, mkNBEntry i2 n2)], [])) := by
  have hstep1 : nbInfoStep ([], []) i1 =
      ([(normalize_port_name n1, mkNBEntry i1 n1)], []) := by
    unfold nbInfoStep
    rw [h1]
    simp [hn1, alGet, alPut]
  have haux : extract_netbox_vlan_info_aux [i1, i2] =
      nbInfoStep ([(normalize_port_name n1, mkNBEntry i1 n1)], []) i2 := by
    unfold extract_netbox_vlan_info_aux
    simp only [List.foldl_cons, List.foldl_nil, hstep1]
  have hget : alGet [(normalize_port_name n1, mkNBEntry i1 n1)]
      (normalize_port_name n2) = some (mkNBEntry i1 n1) := by
    rw [← hkey]
    simp [alGet]
  constructor
  · intro hne
    rw [haux]
    unfold nbInfoStep
    rw [h2]
    simp only [if_neg hn2, hget]
    have hname : (mkNBEntry i1 n1).name = n1 := rfl
    rw [hname]
    simp [hne]
  · intro heq
    rw [haux]
    unfold nbInfoStep
    rw [h2]
    simp only [if_neg hn2, hget]
    have hname : (mkNBEntry i1 n1).name = n1 := rfl
    rw [hname]
    subst heq
    simp [alPut, ← hkey]

/-- Two concrete records differing only in name case. -/
def icP1 : NBIface :=
  { id := some 1, name := some "Port1"
    untagged_vlan := some { vid := .int 10, name := .none, display := .none }
    tagged_vlans := [], mode := .dict (.str "access") }

/-- The same record spelled lower-case with different data. -/
def icP2 : NBIface :=
  { id := some 2, name := some "port1"
    untagged_vlan := some { vid := .int 20, name := .none, display := .none }
    tagged_vlans := [], mode := .dict (.str "access") }

/-- C10 witness: the dedup theorem applied to concrete records - differing
spellings keep the first record and log the pair; identical spellings let
the second record replace the first silently. -/
theorem netbox_dedup_witness :
    (extract_netbox_vlan_info_aux [icP1, icP2] =
      ([("port1", mkNBEntry icP1 "Port1")], [("Port1", "port1")])) ∧
    (extract_netbox_vlan_info_aux [icP2, { icP2 with id := some 3 }] =
      ([("port1", mkNBEntry { icP2 with id := some 3 } "port1")], [])) :=
  ⟨(netbox_dedup icP1 icP2 "Port1" "port1" rfl rfl (by decide) (by decide)
      (by decide)).1 (by decide),
   (netbox_dedup icP2 { icP2 with id := some 3 } "port1" "port1" rfl rfl
      (by decide) (by decide) rfl).2 rfl⟩

/-! ## Claim C9: natural port ordering -/

/-- The mismatch port names that `validatePort` can emit for one name form
a sublist of the singleton of that name. -/
theorem validatePort_ports_sub (sw : Switch) (nbm : List (String × NBEntry))
    (name : String) :
    ((validatePort sw nbm name).map Mismatch.port).Sublist [name] := by
  cases h1 : alGet sw.ports name with
  | none => simp [validatePort, h1]
  | some fg =>
    cases h2 : alGet nbm (normalize_port_name name) with
    | none => simp [validatePort, h1, h2]
    | some nb =>
      simp only [validatePort, h1, h2]
      simp only [portCheck]
      split
      · split
        · simp
        · simp
      · split
        · simp
        · simp

/-- Flattening per-name blocks whose mapped image is at most the name keeps
the outer order: the mapped flatMap is a sublist of the name list. -/
theorem flatMap_map_sub {α β : Type} (f : α → List β) (g : β → α)
    (l : List α) (h : ∀ a, ((f a).map g).Sublist [a]) :
    ((l.flatMap f).map g).Sublist l := by
  induction l with
  | nil => simp
  | cons a t ih =>
    rw [List.flatMap_cons, List.map_append]
    exact List.Sublist.append (h a) ih

/-- C9: reconciliation iterates ports in natural sort order - concretely,
["port10","port2","port1"] sorts to ["port1","port2","port10"]; in
general the iteration order is pairwise non-decreasing under the
`_port_sort_key` order (same stem compares by the integer suffix), and the
emitted mismatch list inherits exactly this order. -/
theorem natural_port_order :
    (sortPorts ["port10", "port2", "port1"] = ["port1", "port2", "port10"]) ∧
    (∀ l : List String, List.Pairwise portOrder (sortPorts l)) ∧
    (∀ (sw : Switch) (ifaces : List NBIface),
      List.Pairwise (fun m1 m2 => portOrder m1.port m2.port)
        (validate_switch_vlans sw ifaces)) := by
  refine ⟨by decide, fun l => List.sorted_insertionSort portOrder l, ?_⟩
  intro sw ifaces
  have hsub : ((validate_switch_vlans sw ifaces).map Mismatch.port).Sublist
      (sortPorts (sw.ports.map Prod.fst)) := by
    unfold validate_switch_vlans
    exact flatMap_map_sub _ _ _
      (validatePort_ports_sub sw (extract_netbox_vlan_info ifaces))
  have hsorted : List.Pairwise portOrder (sortPorts (sw.ports.map Prod.fst)) :=
    List.sorted_insertionSort portOrder _
  have hmap : List.Pairwise portOrder
      ((validate_switch_vlans sw ifaces).map Mismatch.port) :=
    hsorted.sublist hsub
  exact (List.pairwise_map).mp hmap

/-! ## Claims C1-C3: the bounded write-back run -/

/-- A mismatch whose write and verification both go through in a given
environment (integer interface id present, all vid resolutions succeed, the
verification read does not raise). -/
def mismatchApplies (env : NetBoxEnv) (m : Mismatch) : Bool :=
  match m.netbox_interface_id with
  | Option.none => false
  | some i =>
    match update_interface_vlan_config env i
        (if m.desired_mode = "" then "tagged" else m.desired_mode)
        m.desired_native_vid m.desired_tagged_vids with
    | .error _ => false
    | .ok _ =>
      match verifyUpdate env i m with
      | .error _ => false
      | .ok _ => true

/-- The kill-switch loop applied to a long-enough list of applicable
mismatches issues exactly the remaining budget of writes, stops with exit
code 0 and a kill-switch report, and never reaches the device-missing
path. -/
theorem processMismatches_budget (env : NetBoxEnv) (swName ck : String)
    (B : Int) (l : List Mismatch) (a : Nat)
    (hgood : ∀ m ∈ l, mismatchApplies env m = true)
    (ha : (a : Int) < B) (hlen : B ≤ (a : Int) + l.length) :
    ∃ ev w, processMismatches env swName ck B l a =
        (ev, w, some (Outcome.exitCode 0)) ∧
      ((w.length : Int) = B - a) ∧
      (∃ n s, RunEvent.killSwitch n s ∈ ev) ∧
      (∀ s, RunEvent.deviceMissing s ∉ ev) := by
  induction l generalizing a with
  | nil => simp at hlen; omega
  | cons m rest ih =>
    have hm := hgood m (List.mem_cons_self m rest)
    cases hid : m.netbox_interface_id with
    | none => simp [mismatchApplies, hid] at hm
    | some i =>
      cases hupd : update_interface_vlan_config env i
          (if m.desired_mode = "" then "tagged" else m.desired_mode)
          m.desired_native_vid m.desired_tagged_vids with
      | error e => simp [mismatchApplies, hid, hupd] at hm
      | ok payload =>
        cases hver : verifyUpdate env i m with
        | error e => simp [mismatchApplies, hid, hupd, hver] at hm
        | ok ok =>
          simp only [processMismatches, hid, hupd, hver]
          by_cases hstop : ((a + 1 : Nat) : Int) ≥ B
          · rw [if_pos hstop]
            refine ⟨_, _, rfl, ?_, ?_, ?_⟩
            · simp only [List.length_cons, List.length_nil]
              have : (a : Int) + 1 ≥ B := by push_cast at hstop; omega
              push_cast
              omega
            · exact ⟨a + 1, swName, by simp⟩
            · intro s
              cases ok <;> simp
          · rw [if_neg hstop]
            have ha' : ((a + 1 : Nat) : Int) < B := by push_cast at hstop ⊢; omega
            have hlen' : B ≤ ((a + 1 : Nat) : Int) + rest.length := by
              simp only [List.length_cons] at hlen
              push_cast at hlen ⊢
              omega
            obtain ⟨ev', w', heq, hwl, hks, hdm⟩ :=
              ih (a + 1) (fun m hm' => hgood m (List.mem_cons_of_mem _ hm'))
                ha' hlen'
            rw [heq]
            refine ⟨_, _, rfl, ?_, ?_, ?_⟩
            · simp only [List.length_cons]
              push_cast at hwl ⊢
              omega
            · obtain ⟨n, s, hn⟩ := hks
              exact ⟨n, s, by simp [hn]⟩
            · intro s
              have := hdm s
              cases ok <;> simp_all


/-- Unfolding `run_sync` for a single configured FortiGate whose fetched
switch list filters to exactly the target switch, when the kill-switch loop
decides the run. -/
theorem run_sync_single (env : NetBoxEnv) (fgName fgHost t : String)
    (swsRaw : List Switch) (sw : Switch) (B did : Int)
    (ev : List RunEvent) (w : List WritePayload) (o : Outcome)
    (ht : t ≠ "")
    (hfilter : swsRaw.filter (fun s => s.name = t) = [sw])
    (hdev : env.getDeviceByName sw.name = some did)
    (hne : validate_switch_vlans sw (env.getInterfacesForDevice did) ≠ [])
    (hB : 0 < B)
    (hpm : processMismatches env sw.name
        ("netbox_device_" ++ toString did ++ "_interfaces") B
        (validate_switch_vlans sw (env.getInterfacesForDevice did)) 0 =
        (ev, w, some o)) :
    run_sync ⟨[⟨fgName, fgHost, Except.ok swsRaw⟩], B⟩ env (some t) =
      (ev, w, o) := by
  have htb : onlyNameTruthy (some t) = true := by
    simp [onlyNameTruthy, ht]
  have hnotB : ¬ B ≤ 0 := by omega
  unfold run_sync
  simp only [processDevices, htb, if_true, Option.getD, hfilter,
    processSwitchList, processSwitch, hdev, hne, ne_eq,
    not_false_eq_true, and_self, if_true, hnotB, if_false, hpm]

/-- C1: in a single-target run with budget B >= 1 and more applicable
mismatches than budget, exactly B writes are issued, the run stops with the
kill-switch warning and exit code 0 (a non-fatal stop on a code path
disjoint from the fatal device-missing report), and the remaining budget
B - k stays non-negative throughout. -/
theorem run_sync_budget_enforcement (env : NetBoxEnv)
    (fgName fgHost t : String) (swsRaw : List Switch) (sw : Switch)
    (B did : Int)
    (ht : t ≠ "")
    (hfilter : swsRaw.filter (fun s => s.name = t) = [sw])
    (hdev : env.getDeviceByName sw.name = some did)
    (hB : 1 ≤ B)
    (hlen : B <
      ((validate_switch_vlans sw (env.getInterfacesForDevice did)).length : Int))
    (hgood : ∀ m ∈ validate_switch_vlans sw (env.getInterfacesForDevice did),
      mismatchApplies env m = true) :
    ∃ ev w, run_sync ⟨[⟨fgName, fgHost, Except.ok swsRaw⟩], B⟩ env (some t) =
        (ev, w, Outcome.exitCode 0) ∧
      ((w.length : Int) = B) ∧
      (∀ k : Nat, k ≤ w.length → 0 ≤ B - (k : Int)) ∧
      (∃ n s, RunEvent.killSwitch n s ∈ ev) ∧
      (∀ s, RunEvent.deviceMissing s ∉ ev) := by
  obtain ⟨ev, w, hpm, hwl, hks, hdm⟩ :=
    processMismatches_budget env sw.name
      ("netbox_device_" ++ toString did ++ "_interfaces") B
      (validate_switch_vlans sw (env.getInterfacesForDevice did)) 0
      hgood (by omega) (by push_cast; omega)
  have hne : validate_switch_vlans sw (env.getInterfacesForDevice did) ≠ [] := by
    intro h
    rw [h] at hlen
    simp at hlen
    omega
  refine ⟨ev, w,
    run_sync_single env fgName fgHost t swsRaw sw B did ev w _ ht hfilter hdev
      hne (by omega) hpm, ?_, ?_, hks, hdm⟩
  · omega
  · intro k hk
    have : (k : Int) ≤ (w.length : Int) := by exact_mod_cast hk
    omega

/-- Concrete NetBox interface: access mode, native vid as given. -/
def cIfc (i : Int) (nm : String) (vid : Int) : NBIface :=
  { id := some i
    name := some nm
    untagged_vlan := some { vid := .int vid, name := .none, display := .none }
    tagged_vlans := []
    mode := .dict (.str "access") }

/-- Concrete three-port switch, all ports native vlan10. -/
def cSw : Switch :=
  { name := "SW1"
    ports := [
      ("port1", { name := "port1", native_vlan := some "vlan10", allowed_vlans := [] }),
      ("port2", { name := "port2", native_vlan := some "vlan10", allowed_vlans := [] }),
      ("port3", { name := "port3", native_vlan := some "vlan10", allowed_vlans := [] })] }

/-- Concrete healthy NetBox oracle: device SW1 is id 7, its three
interfaces all have native vid 20 (so all three ports mismatch), every vid
resolves, and the verification read reflects the desired state. -/
def cEnv : NetBoxEnv :=
  { getDeviceByName := fun n => if n = "SW1" then some 7 else Option.none
    getInterfacesForDevice := fun _ =>
      [cIfc 1 "port1" 20, cIfc 2 "port2" 20, cIfc 3 "port3" 20]
    resolveVid := fun v => .ok (100 + v)
    getInterface := fun i => cIfc i ("port" ++ toString i) 10 }

/-- C1 witness: the spec scenario - budget 2, three mismatches on the
single target switch - issues exactly 2 writes and stops with the
kill-switch report and exit code 0. -/
theorem run_sync_budget_enforcement_witness :
    ∃ ev w, run_sync ⟨[⟨"fg1", "h1", Except.ok [cSw]⟩], 2⟩ cEnv (some "SW1") =
        (ev, w, Outcome.exitCode 0) ∧
      ((w.length : Int) = 2) ∧
      (∀ k : Nat, k ≤ w.length → 0 ≤ (2 : Int) - (k : Int)) ∧
      (∃ n s, RunEvent.killSwitch n s ∈ ev) ∧
      (∀ s, RunEvent.deviceMissing s ∉ ev) :=
  run_sync_budget_enforcement cEnv "fg1" "h1" "SW1" [cSw] cSw 2 7
    (by decide) (by decide) rfl (by decide) (by decide) (by decide)

/-! ## Claim C2: the default full run never writes -/

/-- With the single-target gate false, the per-switch body never writes. -/
theorem processSwitch_no_target (env : NetBoxEnv) (maxUpd : Int)
    (sw : Switch) : (processSwitch env maxUpd false sw).2.1 = [] := by
  unfold processSwitch
  split
  · rfl
  · simp

/-- With the single-target gate false, the switch loop never writes. -/
theorem processSwitchList_no_target (env : NetBoxEnv) (maxUpd : Int)
    (sws : List Switch) : (processSwitchList env maxUpd false sws).2.1 = [] := by
  induction sws with
  | nil => rfl
  | cons sw rest ih =>
    unfold processSwitchList
    have hw := processSwitch_no_target env maxUpd sw
    cases ho : (processSwitch env maxUpd false sw).2.2 with
    | some o => simp [ho, hw]
    | none => simp [ho, hw, ih]

/-- With no target name, the device loop never writes. -/
theorem processDevices_no_target (env : NetBoxEnv) (maxUpd : Int)
    (devs : List FortiGateDevice) (matched : Bool) :
    (processDevices env maxUpd Option.none devs matched).2.1 = [] := by
  induction devs generalizing matched with
  | nil => rfl
  | cons fg rest ih =>
    unfold processDevices
    cases hf : fg.fetchSwitches with
    | error e => simp [hf]
    | ok sws =>
      have hw := processSwitchList_no_target env maxUpd sws
      simp only [hf, onlyNameTruthy, Bool.false_eq_true, if_false]
      cases ho : (processSwitchList env maxUpd false sws).2.2 with
      | some o => simp [ho, hw]
      | none => simp [ho, hw, ih]

/-- C2: in the default (full, unattended) run mode - `run_sync` invoked
with no target switch name - no NetBox write is ever issued, for every
configuration and every oracle behaviour. -/
theorem run_sync_full_never_writes (settings : Settings) (env : NetBoxEnv) :
    (run_sync settings env Option.none).2.1 = [] := by
  unfold run_sync
  have hw := processDevices_no_target env settings.max_netbox_updates
    settings.fortigate_devices false
  cases ho : (processDevices env settings.max_netbox_updates Option.none
      settings.fortigate_devices false).2.2.2 with
  | some o => simp [ho, hw]
  | none => simp [ho, hw, onlyNameTruthy]

/-! ## Claim C3: unresolvable vid during write-back -/

/-- C3 (amended): a RuntimeError from vid resolution while applying the
first mismatch is not caught by `run_sync`: the exception propagates, the
whole run aborts with no write issued, no error event logged by the loop,
and the remaining mismatches never processed (the budget is untouched, but
only because the run dies). -/
theorem run_sync_resolution_abort (env : NetBoxEnv)
    (fgName fgHost t : String) (swsRaw : List Switch) (sw : Switch)
    (B did : Int) (m : Mismatch) (rest : List Mismatch) (i : Int) (e : String)
    (ht : t ≠ "")
    (hfilter : swsRaw.filter (fun s => s.name = t) = [sw])
    (hdev : env.getDeviceByName sw.name = some did)
    (hB : 0 < B)
    (hmm : validate_switch_vlans sw (env.getInterfacesForDevice did) = m :: rest)
    (hid : m.netbox_interface_id = some i)
    (hupd : update_interface_vlan_config env i
        (if m.desired_mode = "" then "tagged" else m.desired_mode)
        m.desired_native_vid m.desired_tagged_vids = .error e) :
    run_sync ⟨[⟨fgName, fgHost, Except.ok swsRaw⟩], B⟩ env (some t) =
      ([], [], Outcome.raised e) := by
  have hpm : processMismatches env sw.name
      ("netbox_device_" ++ toString did ++ "_interfaces") B
      (validate_switch_vlans sw (env.getInterfacesForDevice did)) 0 =
      ([], [], some (Outcome.raised e)) := by
    rw [hmm]
    simp only [processMismatches, hid, hupd]
  exact run_sync_single env fgName fgHost t swsRaw sw B did [] [] _ ht hfilter
    hdev (by rw [hmm]; exact List.cons_ne_nil m rest) hB hpm

/-- The NetBox oracle of `cEnv` with vid resolution always failing, the
way `get_vlan_id_by_vid` raises when the vid search returns nothing. -/
def cEnvBad : NetBoxEnv :=
  { cEnv with resolveVid :=
      fun v => .error ("NetBox VLAN not found by vid: " ++ toString v) }

/-- The first mismatch `validate_switch_vlans` produces for `cSw` against
`cEnvBad`'s interfaces. -/
def cM1 : Mismatch :=
  { switch := "SW1", port := "port1", netbox_interface_id := some 1
    netbox_interface_name := "port1", desired_mode := "access"
    desired_native_vid := some 10, desired_tagged_vids := [] }

/-- C3 counterexample: with three mismatches pending and budget 2, an
unresolvable vid on the first port does not skip that port and continue -
the run aborts with an uncaught RuntimeError, zero writes, no events: the
claimed skip-log-continue behaviour is absent from the code. -/
theorem run_sync_resolution_abort_cex :
    run_sync ⟨[⟨"fg1", "h1", Except.ok [cSw]⟩], 2⟩ cEnvBad (some "SW1") =
      ([], [], Outcome.raised "NetBox VLAN not found by vid: 10") ∧
    (validate_switch_vlans cSw (cEnvBad.getInterfacesForDevice 7)).length = 3 := by
  exact ⟨by decide, by decide⟩

/-- The second and third mismatches of the same scenario. -/
def cM2 : Mismatch :=
  { switch := "SW1", port := "port2", netbox_interface_id := some 2
    netbox_interface_name := "port2", desired_mode := "access"
    desired_native_vid := some 10, desired_tagged_vids := [] }

/-- The third mismatch of the same scenario. -/
def cM3 : Mismatch :=
  { switch := "SW1", port := "port3", netbox_interface_id := some 3
    netbox_interface_name := "port3", desired_mode := "access"
    desired_native_vid := some 10, desired_tagged_vids := [] }

/-- C3 witness: the amended theorem applied to the concrete scenario. -/
theorem run_sync_resolution_abort_witness :
    run_sync ⟨[⟨"fg1", "h1", Except.ok [cSw]⟩], 2⟩ cEnvBad (some "SW1") =
      ([], [], Outcome.raised "NetBox VLAN not found by vid: 10") :=
  run_sync_resolution_abort cEnvBad "fg1" "h1" "SW1" [cSw] cSw 2 7 cM1
    [cM2, cM3] 1 "NetBox VLAN not found by vid: 10"
    (by decide) (by decide) rfl (by decide) (by decide) rfl rfl

end FgNb
